import Mathlib

/-!
Verification of the trading-core specification against a shallow embedding of
the source under `src/`.

The embedding covers:

* `Account` (src/nautilus_trader/accounting/accounts/base.pyx): the event log,
  per-currency balance map, commission totals, the `apply` / `update_balances` /
  `update_commissions` commands and the `balance*` query methods.
* `TradingStrategy` (src/nautilus_trader/trading/strategy.pyx): the lifecycle
  commands `start` / `stop`, the market-data handlers, `handle_bars`,
  `handle_event`, `flatten_position`, `flatten_all_positions`, and the
  `save` / `load` state contract.

Conventions: currencies, identifiers and symbols are modelled as `Nat`;
fixed-precision decimal amounts as `Int` (the claims under scrutiny do not
depend on the decimal scale); Python dictionaries either as functions into
`Option` or as association lists with right-biased lookup (later writes win,
matching dict assignment and `{**a, **b}` merges); raised exceptions as error
values; and observable side effects (log records, submitted commands, callback
invocations) as explicit action traces.
-/

namespace NautilusSpec

/-! ### Account data model (accounting/accounts/base.pyx) -/

/-- A currency, standing for the interned `Currency` objects of the source. -/
abbrev Currency := Nat

/-- Source `Money`: a currency-tagged fixed-precision amount. -/
structure Money where
  amount : Int
  currency : Currency
  deriving DecidableEq, Repr

/-- Source `AccountBalance`: the per-currency balance triple (amounts in the
balance's currency). -/
structure AccountBalance where
  currency : Currency
  total : Int
  locked : Int
  free : Int
  deriving DecidableEq, Repr

/-- The fields of an `AccountState` event that `Account` reads. -/
structure AccountState where
  account_id : Nat
  base_currency : Option Currency
  balances : List AccountBalance
  deriving DecidableEq, Repr

/-- An `Account`: identity, optional base currency, append-only event log,
current balances and cumulative commissions (both dicts keyed by currency). -/
structure Account where
  id : Nat
  base_currency : Option Currency
  events : List AccountState
  balances : Currency → Option AccountBalance
  commissions : Currency → Option Int

/-- The exceptions raised by `Account` methods via `Condition` checks. -/
inductive AccountErr
  | stateMismatch
  | invariantViolation
  | missingCurrency
  deriving DecidableEq, Repr

/-- The loop body of `Account.update_balances`: each listed balance overwrites
the dict entry for its currency (`self._balances[balance.currency] = balance`). -/
def balancesWrite (m : Currency → Option AccountBalance) (bs : List AccountBalance) :
    Currency → Option AccountBalance :=
  bs.foldl (fun m b => fun c => if c = b.currency then some b else m c) m

/-- Source `Account.update_balances`: `Condition.not_empty(balances)` then the write
loop.  Returns the post-state together with the raised error, if any. -/
def Account.update_balances (a : Account) (bs : List AccountBalance) :
    Account × Option AccountErr :=
  if bs = [] then (a, some .invariantViolation)
  else ({a with balances := balancesWrite a.balances bs}, none)

/-- Source `Account.apply`: checks `event.account_id == self.id` and
`event.base_currency == self.base_currency`; when a base currency is set,
checks the event carries exactly one balance and that it is for the base
currency; then appends the event and runs `update_balances`.  Returns the
post-state (including any mutation performed before an exception) together
with the raised error, if any. -/
def Account.apply (a : Account) (e : AccountState) : Account × Option AccountErr :=
  if e.account_id ≠ a.id then (a, some .stateMismatch)
  else if e.base_currency ≠ a.base_currency then (a, some .stateMismatch)
  else
    let chk : Option AccountErr :=
      match a.base_currency with
      | some bc =>
        match e.balances with
        | [b] => if b.currency = bc then none else some .invariantViolation
        | _ => some .invariantViolation
      | none => none
    match chk with
    | some err => (a, some err)
    | none =>
      Account.update_balances {a with events := a.events ++ [e]} e.balances

/-- Sequential application of events, defined only when every `apply`
succeeds (a sequence of valid `AccountState` events). -/
def Account.applyAll (a : Account) (es : List AccountState) : Option Account :=
  es.foldlM
    (fun acc e =>
      match Account.apply acc e with
      | (a1, none) => some a1
      | (_, some _) => none)
    a

/-- Resolution of the implicit query currency: an explicit argument wins,
otherwise the account's base currency (`if currency is None: currency =
self.base_currency`). -/
def Account.resolveCurrency (a : Account) (currency : Option Currency) : Option Currency :=
  match currency with
  | some c => some c
  | none => a.base_currency

/-- Source `Account.balance`: returns the stored `AccountBalance` for the resolved
currency, `none` when there is no entry; raises when no currency resolves. -/
def Account.balance (a : Account) (currency : Option Currency) :
    Except AccountErr (Option AccountBalance) :=
  match a.resolveCurrency currency with
  | none => .error .missingCurrency
  | some c => .ok (a.balances c)

/-- Source `Account.balance_total`: the `total` field of the stored balance. -/
def Account.balance_total (a : Account) (currency : Option Currency) :
    Except AccountErr (Option Int) :=
  match a.resolveCurrency currency with
  | none => .error .missingCurrency
  | some c =>
    match a.balances c with
    | none => .ok none
    | some b => .ok (some b.total)

/-- Source `Account.balance_free`: the `free` field of the stored balance. -/
def Account.balance_free (a : Account) (currency : Option Currency) :
    Except AccountErr (Option Int) :=
  match a.resolveCurrency currency with
  | none => .error .missingCurrency
  | some c =>
    match a.balances c with
    | none => .ok none
    | some b => .ok (some b.free)

/-- Source `Account.balance_locked`: the `locked` field of the stored balance. -/
def Account.balance_locked (a : Account) (currency : Option Currency) :
    Except AccountErr (Option Int) :=
  match a.resolveCurrency currency with
  | none => .error .missingCurrency
  | some c =>
    match a.balances c with
    | none => .ok none
    | some b => .ok (some b.locked)

/-- Source `Account.update_commissions`: returns unchanged when the amount is exactly
zero, otherwise adds the (possibly negative) amount onto the running total for
the commission's currency, defaulting the prior total to zero. -/
def Account.update_commissions (a : Account) (commission : Money) : Account :=
  if commission.amount = 0 then a
  else
    let currency := commission.currency
    let total := (a.commissions currency).getD 0
    {a with
      commissions := fun c =>
        if c = currency then some (total + commission.amount) else a.commissions c}

/-- The balance an event declares for a currency, taking the last entry when
the event lists the currency more than once (dict writes in list order). -/
def declaredBalance (e : AccountState) (c : Currency) : Option AccountBalance :=
  e.balances.reverse.find? (fun b => b.currency == c)

theorem balancesWrite_lookup (bs : List AccountBalance)
    (m : Currency → Option AccountBalance) (c : Currency) :
    balancesWrite m bs c =
      ((bs.reverse.find? (fun b => b.currency == c)).or (m c)) := by
  induction bs generalizing m with
  | nil => simp [balancesWrite]
  | cons b t ih =>
    show balancesWrite (fun c => if c = b.currency then some b else m c) t c = _
    rw [ih]
    simp only [List.reverse_cons, List.find?_append]
    cases h : t.reverse.find? (fun x => x.currency == c) with
    | some x => simp [Option.or]
    | none =>
      simp only [Option.or_none, List.find?]
      by_cases hc : b.currency = c
      · simp [hc, Option.or]
      · have : (b.currency == c) = false := by simp [hc]
        simp [this, Option.or]
        intro hcc
        exact absurd hcc.symm hc

theorem apply_success_balances (a aPost : Account) (e : AccountState)
    (h : a.apply e = (aPost, none)) :
    aPost.balances = balancesWrite a.balances e.balances
      ∧ aPost.events = a.events ++ [e] := by
  unfold Account.apply Account.update_balances at h
  repeat' split at h
  all_goals simp only [Prod.mk.injEq] at h
  all_goals
    first
      | (rw [← h.1]; exact ⟨rfl, rfl⟩)
      | exact absurd h.2 (by simp)

/-- C1: for every Account and every sequence of valid AccountState events
applied via `apply`, after each successful apply the stored balance for each
currency present in the event equals exactly the balance declared in that
event for that currency (last declaration wins), while balances for
currencies absent from the event retain their prior values. -/
theorem account_apply_last_write_wins
    (a0 : Account) (es : List AccountState) (i : Nat)
    (aPre aPost : Account) (e : AccountState)
    (hpre : a0.applyAll (es.take i) = some aPre)
    (hev : es.get? i = some e)
    (hstep : aPre.apply e = (aPost, none)) :
    ∀ c : Currency,
      (∀ b, declaredBalance e c = some b → aPost.balances c = some b)
      ∧ (declaredBalance e c = none → aPost.balances c = aPre.balances c) := by
  intro c
  have hbal := (apply_success_balances aPre aPost e hstep).1
  have hw := balancesWrite_lookup e.balances aPre.balances c
  constructor
  · intro b hb
    rw [hbal, hw]
    unfold declaredBalance at hb
    rw [hb]
    rfl
  · intro hb
    rw [hbal, hw]
    unfold declaredBalance at hb
    rw [hb]
    rfl

/-- Concrete data for the C1 witness. -/
def wE1 : AccountState :=
  { account_id := 1, base_currency := some 0
    balances := [{ currency := 0, total := 100, locked := 0, free := 100 }] }

/-- Second concrete event for the C1 witness. -/
def wE2 : AccountState :=
  { account_id := 1, base_currency := some 0
    balances := [{ currency := 0, total := 90, locked := 10, free := 80 }] }

/-- Concrete account for the C1 witness. -/
def wAccount : Account :=
  { id := 1, base_currency := some 0, events := [wE1]
    balances := balancesWrite (fun _ => none) wE1.balances
    commissions := fun _ => none }

/-- Account state after applying `wE1` to `wAccount`. -/
def wPre : Account := (wAccount.apply wE1).1

/-- Account state after then applying `wE2`. -/
def wPost : Account := (wPre.apply wE2).1

/-- Witness for C1 at a concrete two-event sequence. -/
theorem account_apply_last_write_wins_witness :
    wAccount.applyAll ([wE1, wE2].take 1) = some wPre
    ∧ [wE1, wE2].get? 1 = some wE2
    ∧ wPre.apply wE2 = (wPost, none)
    ∧ ((∀ b, declaredBalance wE2 0 = some b → wPost.balances 0 = some b)
        ∧ (declaredBalance wE2 0 = none → wPost.balances 0 = wPre.balances 0)) :=
  have h1 : wAccount.applyAll ([wE1, wE2].take 1) = some wPre := rfl
  have h2 : [wE1, wE2].get? 1 = some wE2 := rfl
  have h3 : wPre.apply wE2 = (wPost, none) := rfl
  ⟨h1, h2, h3,
    account_apply_last_write_wins wAccount [wE1, wE2] 1 wPre wPost wE2 h1 h2 h3 0⟩

/-- C2: applying an AccountState event whose `account_id` differs from the
account's id, or whose `base_currency` differs from the account's, or — when a
base currency is set — which carries a number of balances other than one or a
balance for a currency other than the base currency, fails and leaves the
account's event log and balances (and everything else) unchanged. -/
theorem account_apply_mismatch_atomic (a : Account) (e : AccountState)
    (h : e.account_id ≠ a.id
        ∨ e.base_currency ≠ a.base_currency
        ∨ (∃ bc, a.base_currency = some bc
            ∧ (e.balances.length ≠ 1 ∨ ∃ b ∈ e.balances, b.currency ≠ bc))) :
    (a.apply e).1 = a ∧ (a.apply e).2.isSome
      ∧ (a.apply e).1.events = a.events ∧ (a.apply e).1.balances = a.balances := by
  have key : (a.apply e).1 = a ∧ (a.apply e).2.isSome := by
    unfold Account.apply
    rcases h with h1 | h2 | ⟨bc, hbc, hbad⟩
    · simp [h1]
    · split
      · exact ⟨rfl, rfl⟩
      · simp [h2]
    · split
      · exact ⟨rfl, rfl⟩
      · split
        · exact ⟨rfl, rfl⟩
        · rename_i hid hbase
          rw [hbc]
          rcases hlist : e.balances with _ | ⟨b, t⟩
          · exact ⟨rfl, rfl⟩
          · rcases t with _ | ⟨b2, t2⟩
            · rcases hbad with hlen | ⟨bb, hbbmem, hbbne⟩
              · rw [hlist] at hlen
                simp at hlen
              · rw [hlist] at hbbmem
                simp at hbbmem
                subst hbbmem
                simp [hbbne]
            · exact ⟨rfl, rfl⟩
  exact ⟨key.1, key.2, by rw [key.1], by rw [key.1]⟩

/-- A concrete account whose id differs from `wE1.account_id` (C2 witness). -/
def wA2 : Account :=
  { id := 2, base_currency := some 0, events := [wE1]
    balances := fun _ => none, commissions := fun _ => none }

/-- Witness for C2: a concrete mismatched event against `wA2`. -/
theorem account_apply_mismatch_atomic_witness :
    wE1.account_id ≠ wA2.id
    ∧ ((wA2.apply wE1).1 = wA2 ∧ (wA2.apply wE1).2.isSome
        ∧ (wA2.apply wE1).1.events = wA2.events
        ∧ (wA2.apply wE1).1.balances = wA2.balances) :=
  ⟨by decide,
    account_apply_mismatch_atomic wA2 wE1 (Or.inl (by decide))⟩

/-- C8: the balance query methods resolve the implicit currency from the
account's base currency when none is supplied, fail when no currency can be
resolved, and answer a distinguished no-data `none` (never a zero amount)
when the resolved currency has no recorded balance. -/
theorem account_balance_queries (a : Account) :
    (∀ bc, a.base_currency = some bc →
        a.balance none = a.balance (some bc)
        ∧ a.balance_total none = a.balance_total (some bc)
        ∧ a.balance_free none = a.balance_free (some bc)
        ∧ a.balance_locked none = a.balance_locked (some bc))
    ∧ (a.base_currency = none →
        a.balance none = .error .missingCurrency
        ∧ a.balance_total none = .error .missingCurrency
        ∧ a.balance_free none = .error .missingCurrency
        ∧ a.balance_locked none = .error .missingCurrency)
    ∧ (∀ c, a.balances c = none →
        a.balance (some c) = .ok none
        ∧ a.balance_total (some c) = .ok none
        ∧ a.balance_free (some c) = .ok none
        ∧ a.balance_locked (some c) = .ok none) := by
  refine ⟨fun bc hbc => ?_, fun hnone => ?_, fun c hc => ?_⟩
  · simp [Account.balance, Account.balance_total, Account.balance_free,
      Account.balance_locked, Account.resolveCurrency, hbc]
  · simp [Account.balance, Account.balance_total, Account.balance_free,
      Account.balance_locked, Account.resolveCurrency, hnone]
  · simp [Account.balance, Account.balance_total, Account.balance_free,
      Account.balance_locked, Account.resolveCurrency, hc]

/-- A concrete multi-currency account (no base currency), for the C8 witness. -/
def wMulti : Account :=
  { id := 3, base_currency := none, events := []
    balances := fun _ => none, commissions := fun _ => none }

/-- Witness for C8 at concrete accounts: one with a base currency that has no
recorded balance for currency 7, and one with no base currency. -/
theorem account_balance_queries_witness :
    (wAccount.base_currency = some 0
      ∧ wAccount.balance none = wAccount.balance (some 0)
      ∧ wAccount.balances 7 = none
      ∧ wAccount.balance_total (some 7) = .ok none)
    ∧ wMulti.balance none = .error .missingCurrency :=
  ⟨⟨rfl, ((account_balance_queries wAccount).1 0 rfl).1, rfl,
      ((account_balance_queries wAccount).2.2 7 rfl).2.1⟩,
    ((account_balance_queries wMulti).2.1 rfl).1⟩

/-- C9: `update_commissions` is a no-op when the commission amount is exactly
zero; otherwise it adds the (possibly negative) amount to the running total
for the commission's currency and leaves all other currencies' totals — and
the rest of the account — unchanged. -/
theorem account_update_commissions (a : Account) (m : Money) :
    (m.amount = 0 → a.update_commissions m = a)
    ∧ (m.amount ≠ 0 →
        (a.update_commissions m).commissions m.currency
            = some ((a.commissions m.currency).getD 0 + m.amount)
        ∧ (∀ c, c ≠ m.currency →
            (a.update_commissions m).commissions c = a.commissions c)
        ∧ (a.update_commissions m).balances = a.balances
        ∧ (a.update_commissions m).events = a.events) := by
  constructor
  · intro h0
    simp [Account.update_commissions, h0]
  · intro hne
    refine ⟨?_, fun c hc => ?_, ?_, ?_⟩
    · simp [Account.update_commissions, hne]
    · simp [Account.update_commissions, hne, hc]
    · simp [Account.update_commissions, hne]
    · simp [Account.update_commissions, hne]

/-- Witness for C9: a zero commission is a no-op on `wAccount`; a negative
five-unit commission in currency 2 lands on the running total. -/
theorem account_update_commissions_witness :
    (wAccount.update_commissions { amount := 0, currency := 2 } = wAccount)
    ∧ ((wAccount.update_commissions { amount := -5, currency := 2 }).commissions 2
        = some ((wAccount.commissions 2).getD 0 + (-5))
      ∧ (wAccount.update_commissions { amount := -5, currency := 2 }).commissions 1
        = wAccount.commissions 1) :=
  ⟨(account_update_commissions wAccount { amount := 0, currency := 2 }).1 rfl,
    ((account_update_commissions wAccount { amount := -5, currency := 2 }).2
        (by decide)).1,
    ((account_update_commissions wAccount { amount := -5, currency := 2 }).2
        (by decide)).2.1 1 (by decide)⟩

/-! ### TradingStrategy runtime (trading/strategy.pyx) -/

/-- The component lifecycle states of the strategy FSM. -/
inductive ComponentState
  | initialized
  | resetting
  | starting
  | running
  | stopping
  | stopped
  | resuming
  | disposing
  | disposed
  deriving DecidableEq, Repr

/-- The string triggers the strategy fires on its FSM. -/
inductive FsmTrigger
  | start
  | running
  | stop
  | stopped
  | resume
  | reset
  | dispose
  | disposed
  deriving DecidableEq, Repr

/-- Modelled from the spec: `create_component_fsm`
(nautilus_trader/common/component.pyx) is not included under src/, so the
trigger table is reconstructed from the spec's state set and transition
graph — `start` leads toward Running via Starting, `stop` toward Stopped via
Stopping, `resume` via Resuming, `reset` via a Resetting round trip, and
`dispose` is terminal; a trigger fired from any other state is invalid and
raises `InvalidStateTrigger`. -/
def fsmTransition : ComponentState → FsmTrigger → Option ComponentState
  | .initialized, .start => some .starting
  | .initialized, .reset => some .resetting
  | .initialized, .dispose => some .disposing
  | .resetting, .reset => some .initialized
  | .starting, .running => some .running
  | .starting, .stop => some .stopping
  | .running, .stop => some .stopping
  | .resuming, .running => some .running
  | .resuming, .stop => some .stopping
  | .stopping, .stopped => some .stopped
  | .stopped, .reset => some .resetting
  | .stopped, .resume => some .resuming
  | .stopped, .dispose => some .disposing
  | .disposing, .disposed => some .disposed
  | _, _ => none

/-- The position attributes the strategy reads from the execution database. -/
structure Position where
  symbol : Nat
  market_position : Nat
  quantity : Nat
  closed : Bool
  deriving DecidableEq, Repr

/-- The execution-database queries the strategy performs (the database is an
external collaborator; its answers are inputs to each call). -/
structure Database where
  get_position : Nat → Option Position
  get_positions_open : List (Nat × Position)
  get_client_position_id : Nat → Option Nat
  is_position_open : Nat → Bool
  get_orders_working : List Nat

/-- Whether the user `on_start` callback raises (user code is external). -/
structure Callbacks where
  on_start_raises : Bool
  deriving DecidableEq, Repr

/-- The mutable strategy state: FSM state, collaborator registrations,
management flags, the flattening / stop-loss / take-profit id sets, and the
indicator registries keyed by symbol or bar type. -/
structure Strategy where
  fsm : ComponentState
  data_engine_registered : Bool
  exec_engine_registered : Bool
  flatten_on_stop : Bool
  flatten_on_reject : Bool
  cancel_all_orders_on_stop : Bool
  reraise_exceptions : Bool
  flattening_ids : Finset Nat
  stop_loss_ids : Finset Nat
  take_profit_ids : Finset Nat
  indicators_for_quotes : Nat → Option (List Nat)
  indicators_for_trades : Nat → Option (List Nat)
  indicators_for_bars : Nat → Option (List Nat)

/-- Observable effects of a strategy call: log records, raised Condition
errors, submitted commands, callback and indicator invocations. -/
inductive SAction
  | logError
  | logWarning
  | logInfo
  | raiseCondition
  | submitFlattenOrder (pos_id : Nat)
  | cancelOrderCmd (ord_id : Nat)
  | callOnStart
  | callOnStop
  | callOnEvent
  | updateIndicatorQuote (ind : Nat)
  | updateIndicatorTrade (ind : Nat)
  | updateIndicatorBar (ind : Nat)
  | callOnQuoteTick
  | callOnTradeTick
  | callOnBar
  deriving DecidableEq, Repr

/-- Source `TradingStrategy.flatten_position`: skips (warning only) when the id is
already in the in-flight flattening set; errors when the position is unknown;
warns when it is already closed; otherwise records the id as flattening and
submits one flattening market order. -/
def Strategy.flatten_position (s : Strategy) (db : Database) (p : Nat) :
    Strategy × List SAction :=
  if ¬ s.exec_engine_registered then (s, [.raiseCondition])
  else if p ∈ s.flattening_ids then (s, [.logWarning])
  else
    match db.get_position p with
    | none => (s, [.logError])
    | some pos =>
      if pos.closed then (s, [.logWarning])
      else
        ({s with flattening_ids := insert p s.flattening_ids},
          [.logInfo, .submitFlattenOrder p])

/-- Source `TradingStrategy.flatten_all_positions`: submits one flattening market
order per open position returned by the database, skipping (with a warning)
positions already closed; the strategy state itself is never written. -/
def Strategy.flatten_all_positions (s : Strategy) (db : Database) :
    Strategy × List SAction :=
  (s,
    if ¬ s.exec_engine_registered then [.raiseCondition]
    else if db.get_positions_open.length = 0 then [.logInfo]
    else
      .logInfo ::
        db.get_positions_open.flatMap fun pp =>
          if pp.2.closed then [.logWarning]
          else [.logInfo, .submitFlattenOrder pp.1])

/-- Source `TradingStrategy.cancel_all_orders`: submits one CancelOrder command per
working order returned by the database; no strategy state is written. -/
def Strategy.cancel_all_orders (s : Strategy) (db : Database) :
    Strategy × List SAction :=
  (s,
    if ¬ s.exec_engine_registered then [.raiseCondition]
    else if db.get_orders_working.length = 0 then [.logInfo]
    else .logInfo :: db.get_orders_working.map .cancelOrderCmd)

/-- Source `TradingStrategy.stop`: an invalid STOP trigger is caught, logged and the
call becomes a no-op; otherwise timers are cancelled, open positions are
flattened and working orders cancelled per the management flags, `on_stop`
runs (exceptions logged and swallowed), and the STOPPED trigger fires.
`flatten_all_positions` and `cancel_all_orders` return the strategy state
unchanged (their definitions are literally `(s, trace)`), so only their
traces appear here. -/
def Strategy.stop (s : Strategy) (db : Database) (cb : Callbacks) :
    Strategy × List SAction :=
  match fsmTransition s.fsm .stop with
  | none => (s, [.logError])
  | some st1 =>
    let s1 : Strategy := {s with fsm := st1}
    let t2 := if s1.flatten_on_stop then (s1.flatten_all_positions db).2 else []
    let t3 := if s1.cancel_all_orders_on_stop then (s1.cancel_all_orders db).2 else []
    match fsmTransition s1.fsm .stopped with
    | some st2 => ({s1 with fsm := st2}, t2 ++ t3 ++ [.callOnStop])
    | none => (s1, t2 ++ t3 ++ [.callOnStop, .raiseCondition])

/-- Source `TradingStrategy.start`: an invalid START trigger is caught, logged and
followed by a forced `stop`; an unregistered data or execution engine aborts
the call with an error log (and nothing else); an exception from `on_start`
is logged and followed by a forced `stop`; otherwise the RUNNING trigger
fires. -/
def Strategy.start (s : Strategy) (db : Database) (cb : Callbacks) :
    Strategy × List SAction :=
  match fsmTransition s.fsm .start with
  | none =>
    let r := s.stop db cb
    (r.1, .logError :: r.2)
  | some st1 =>
    let s1 : Strategy := {s with fsm := st1}
    if ¬ s1.data_engine_registered then (s1, [.logError])
    else if ¬ s1.exec_engine_registered then (s1, [.logError])
    else if cb.on_start_raises then
      let r := s1.stop db cb
      (r.1, .callOnStart :: .logError :: r.2)
    else
      match fsmTransition s1.fsm .running with
      | some st2 => ({s1 with fsm := st2}, [.callOnStart])
      | none => (s1, [.callOnStart, .raiseCondition])

/-- The event variants `handle_event` distinguishes (carrying the client
order id or client position id each reads). -/
inductive TEvent
  | orderInvalid (cl_ord_id : Nat)
  | orderDenied (cl_ord_id : Nat)
  | orderRejected (cl_ord_id : Nat)
  | orderCancelled (cl_ord_id : Nat)
  | orderExpired (cl_ord_id : Nat)
  | orderFilled (cl_ord_id : Nat)
  | orderCancelReject (cl_ord_id : Nat)
  | positionClosed (pos_id : Nat)
  | otherEvent
  deriving DecidableEq, Repr

/-- The client order id of an event in the `_ORDER_COMPLETION_TRIGGERS` tuple
(OrderInvalid, OrderDenied, OrderRejected, OrderCancelled, OrderExpired,
OrderFilled), `none` for every other event. -/
def TEvent.completionOrderId : TEvent → Option Nat
  | .orderInvalid c => some c
  | .orderDenied c => some c
  | .orderRejected c => some c
  | .orderCancelled c => some c
  | .orderExpired c => some c
  | .orderFilled c => some c
  | _ => none

/-- Source `TradingStrategy._flatten_on_reject`: a rejected order that is registered
as a stop-loss or take-profit has its position looked up and, if the position
is open, flattened via `flatten_position`. -/
def Strategy.flattenOnReject (s : Strategy) (db : Database) (cl_ord_id : Nat) :
    Strategy × List SAction :=
  if cl_ord_id ∉ s.stop_loss_ids ∧ cl_ord_id ∉ s.take_profit_ids then (s, [])
  else
    match db.get_client_position_id cl_ord_id with
    | none => (s, [.logError])
    | some pid =>
      if db.is_position_open pid then
        let r := s.flatten_position db pid
        (r.1, .logWarning :: r.2)
      else (s, [])

/-- The event-variant bookkeeping of `handle_event`: on OrderRejected warn
and optionally flatten-on-reject; on OrderCancelReject warn; on
PositionClosed discard the position id from the flattening set; otherwise
log the event. -/
def Strategy.eventBookkeeping (s : Strategy) (db : Database) (e : TEvent) :
    Strategy × List SAction :=
  match e with
  | .orderRejected cid =>
    if s.flatten_on_reject then
      let r := s.flattenOnReject db cid
      (r.1, .logWarning :: r.2)
    else (s, [.logWarning])
  | .orderCancelReject _ => (s, [.logWarning])
  | .positionClosed pid =>
    ({s with flattening_ids := s.flattening_ids.erase pid}, [])
  | _ => (s, [.logInfo])

/-- The completion-trigger cleanup of `handle_event`: discard the order id of
a completed order from both the stop-loss and take-profit registries. -/
def Strategy.completionDiscard (s : Strategy) (e : TEvent) : Strategy :=
  match e.completionOrderId with
  | some cid =>
    {s with
      stop_loss_ids := s.stop_loss_ids.erase cid
      take_profit_ids := s.take_profit_ids.erase cid}
  | none => s

/-- Source `TradingStrategy.handle_event`, assembled from the event-variant
bookkeeping, the completion-trigger cleanup, and the FSM-gated `on_event`. -/
def Strategy.handle_event (s : Strategy) (db : Database) (e : TEvent) :
    Strategy × List SAction :=
  let r1 := s.eventBookkeeping db e
  let s2 := r1.1.completionDiscard e
  if s2.fsm = .running then (s2, r1.2 ++ [.callOnEvent]) else (s2, r1.2)

/-- A bar; only the timestamp is inspected by the handlers. -/
structure Bar where
  timestamp : Nat
  deriving DecidableEq, Repr

/-- Source `TradingStrategy.handle_quote_tick`: update every indicator registered
for the tick's symbol, then — unless the tick is historical — invoke
`on_quote_tick` when the FSM state is Running. -/
def Strategy.handle_quote_tick (s : Strategy) (sym : Nat) (is_historical : Bool) :
    List SAction :=
  let upd :=
    match s.indicators_for_quotes sym with
    | none => []
    | some inds => inds.map SAction.updateIndicatorQuote
  if is_historical then upd
  else if s.fsm = .running then upd ++ [.callOnQuoteTick]
  else upd

/-- Source `TradingStrategy.handle_trade_tick`: as `handle_quote_tick`, for the
trade-tick registry and `on_trade_tick`. -/
def Strategy.handle_trade_tick (s : Strategy) (sym : Nat) (is_historical : Bool) :
    List SAction :=
  let upd :=
    match s.indicators_for_trades sym with
    | none => []
    | some inds => inds.map SAction.updateIndicatorTrade
  if is_historical then upd
  else if s.fsm = .running then upd ++ [.callOnTradeTick]
  else upd

/-- Source `TradingStrategy.handle_bar`: as `handle_quote_tick`, for the bar
registry (keyed by bar type) and `on_bar`. -/
def Strategy.handle_bar (s : Strategy) (bar_type : Nat) (bar : Bar)
    (is_historical : Bool) : List SAction :=
  let upd :=
    match s.indicators_for_bars bar_type with
    | none => []
    | some inds => inds.map SAction.updateIndicatorBar
  if is_historical then upd
  else if s.fsm = .running then upd ++ [.callOnBar]
  else upd

/-- Source `TradingStrategy.handle_bars`: logs receipt, raises a RuntimeError when
the list is non-empty and the first bar's timestamp exceeds the last bar's
(incorrect sort), and otherwise delivers every bar to `handle_bar` as
historical data.  The Bool is true when the RuntimeError was raised. -/
def Strategy.handle_bars (s : Strategy) (bar_type : Nat) (bars : List Bar) :
    List SAction × Bool :=
  match bars with
  | [] => ([.logInfo], false)
  | b :: rest =>
    if b.timestamp > (rest.getLast?.getD b).timestamp then ([.logInfo], true)
    else
      (.logInfo ::
        (b :: rest).flatMap (fun bb => s.handle_bar bar_type bb true), false)

/-- One externally triggered strategy call: a direct `flatten_position`
request or an inbound event through `handle_event` (the database answers are
part of the step, since the database is an external collaborator). -/
inductive StratStep
  | flattenCall (db : Database) (p : Nat)
  | eventCall (db : Database) (e : TEvent)

/-- Run one step against the strategy state. -/
def Strategy.runStep (s : Strategy) : StratStep → Strategy × List SAction
  | .flattenCall db p => s.flatten_position db p
  | .eventCall db e => s.handle_event db e

/-- Run a list of steps, concatenating the emitted action traces. -/
def Strategy.runSteps (s : Strategy) : List StratStep → Strategy × List SAction
  | [] => (s, [])
  | st :: rest =>
    let r1 := s.runStep st
    let r2 := r1.1.runSteps rest
    (r2.1, r1.2 ++ r2.2)

/-- Whether a step is the handling of a PositionClosed event for position `p`. -/
def StratStep.closesPosition (p : Nat) : StratStep → Bool
  | .eventCall _ (.positionClosed q) => q == p
  | _ => false

/-- C5: each market-data handler first updates every indicator registered for
the symbol or bar type, regardless of FSM state, and then invokes the
corresponding user callback if and only if the historical flag is false and
the FSM state is Running. -/
theorem strategy_market_data_handlers (s : Strategy) (sym tsym bt : Nat)
    (bar : Bar) (hist : Bool) :
    (s.handle_quote_tick sym hist
        = ((s.indicators_for_quotes sym).getD []).map SAction.updateIndicatorQuote
          ++ (if hist = false ∧ s.fsm = .running then [SAction.callOnQuoteTick] else [])
      ∧ (SAction.callOnQuoteTick ∈ s.handle_quote_tick sym hist
          ↔ hist = false ∧ s.fsm = .running))
    ∧ (s.handle_trade_tick tsym hist
        = ((s.indicators_for_trades tsym).getD []).map SAction.updateIndicatorTrade
          ++ (if hist = false ∧ s.fsm = .running then [SAction.callOnTradeTick] else [])
      ∧ (SAction.callOnTradeTick ∈ s.handle_trade_tick tsym hist
          ↔ hist = false ∧ s.fsm = .running))
    ∧ (s.handle_bar bt bar hist
        = ((s.indicators_for_bars bt).getD []).map SAction.updateIndicatorBar
          ++ (if hist = false ∧ s.fsm = .running then [SAction.callOnBar] else [])
      ∧ (SAction.callOnBar ∈ s.handle_bar bt bar hist
          ↔ hist = false ∧ s.fsm = .running)) := by
  refine ⟨⟨?_, ?_⟩, ⟨?_, ?_⟩, ⟨?_, ?_⟩⟩ <;>
    cases hq : s.indicators_for_quotes sym <;>
    cases ht : s.indicators_for_trades tsym <;>
    cases hb : s.indicators_for_bars bt <;>
    cases hist <;>
    by_cases hr : s.fsm = .running <;>
    simp [Strategy.handle_quote_tick, Strategy.handle_trade_tick,
      Strategy.handle_bar, hq, ht, hb, hr]

/-- C6: `handle_bars` called on a list of at least two bars with strictly
descending timestamps raises the sort-order RuntimeError before any
indicator update: the emitted trace is the receipt log only, containing no
indicator update for any bar. -/
theorem strategy_handle_bars_unsorted (s : Strategy) (bt : Nat) (bars : List Bar)
    (hlen : 2 ≤ bars.length)
    (hdesc : bars.Pairwise fun a b => b.timestamp < a.timestamp) :
    (s.handle_bars bt bars).2 = true
    ∧ (s.handle_bars bt bars).1 = [SAction.logInfo]
    ∧ ∀ i, SAction.updateIndicatorBar i ∉ (s.handle_bars bt bars).1 := by
  match bars, hlen, hdesc with
  | b :: r :: rest, _, hdesc =>
    have hlast : (r :: rest).getLast? = some ((r :: rest).getLast (by simp)) :=
      (List.getLast?_eq_getLast (r :: rest) (by simp)).symm
    have hmem : (r :: rest).getLast (by simp) ∈ r :: rest := List.getLast_mem _
    have hlt : ((r :: rest).getLast (by simp)).timestamp < b.timestamp :=
      (List.pairwise_cons.1 hdesc).1 _ hmem
    have hcond :
        b.timestamp > (((r :: rest).getLast?).getD b).timestamp := by
      rw [hlast]
      exact hlt
    have hrun : s.handle_bars bt (b :: r :: rest) = ([SAction.logInfo], true) := by
      have hred : s.handle_bars bt (b :: r :: rest)
          = if b.timestamp > (((r :: rest).getLast?).getD b).timestamp
            then ([SAction.logInfo], true)
            else (SAction.logInfo ::
              (b :: r :: rest).flatMap fun bb => s.handle_bar bt bb true, false) := rfl
      rw [hred, if_pos hcond]
    refine ⟨by rw [hrun], by rw [hrun], fun i => by rw [hrun]; simp⟩

/-- Two concrete descending bars for the C6 witness. -/
def wBars : List Bar := [{ timestamp := 3 }, { timestamp := 1 }]

/-- A concrete strategy with an indicator registered for bar type 0
(C6 witness). -/
def wStrategyBars : Strategy :=
  { fsm := .running
    data_engine_registered := true, exec_engine_registered := true
    flatten_on_stop := true, flatten_on_reject := true
    cancel_all_orders_on_stop := true, reraise_exceptions := true
    flattening_ids := ∅, stop_loss_ids := ∅, take_profit_ids := ∅
    indicators_for_quotes := fun _ => none
    indicators_for_trades := fun _ => none
    indicators_for_bars := fun b => if b = 0 then some [1] else none }

/-- Witness for C6: the descending two-bar list raises before the registered
indicator sees any bar. -/
theorem strategy_handle_bars_unsorted_witness :
    2 ≤ wBars.length
    ∧ (wBars.Pairwise fun a b => b.timestamp < a.timestamp)
    ∧ (wStrategyBars.handle_bars 0 wBars).2 = true
    ∧ (wStrategyBars.handle_bars 0 wBars).1 = [SAction.logInfo]
    ∧ SAction.updateIndicatorBar 1 ∉ (wStrategyBars.handle_bars 0 wBars).1 :=
  have h1 : 2 ≤ wBars.length := by decide
  have h2 : wBars.Pairwise fun a b => b.timestamp < a.timestamp := by decide
  have main := strategy_handle_bars_unsorted wStrategyBars 0 wBars h1 h2
  ⟨h1, h2, main.1, main.2.1, main.2.2 1⟩

/-- Recognizer for flattening-order submissions in an action trace. -/
def isFlattenSubmit : SAction → Bool
  | .submitFlattenOrder _ => true
  | _ => false

theorem flatten_all_trace_filter (l : List (Nat × Position)) :
    ((l.flatMap fun pp =>
        if pp.2.closed then [SAction.logWarning]
        else [SAction.logInfo, SAction.submitFlattenOrder pp.1]).filter isFlattenSubmit)
      = (l.filter fun pp => pp.2.closed = false).map
          fun pp => SAction.submitFlattenOrder pp.1 := by
  induction l with
  | nil => rfl
  | cons pp t ih =>
    cases hc : pp.2.closed <;>
      simp [List.flatMap_cons, List.filter_append, ih, hc, isFlattenSubmit]

/-- C10: `flatten_all_positions` submits exactly one flattening market order
per non-closed position returned by the database — regardless of the
in-flight flattening set, whose guard does not apply here — and never writes
the strategy state, so the flattening set is unchanged. -/
theorem strategy_flatten_all_positions (s : Strategy) (db : Database)
    (hexec : s.exec_engine_registered = true) :
    (s.flatten_all_positions db).1 = s
    ∧ (s.flatten_all_positions db).1.flattening_ids = s.flattening_ids
    ∧ ((s.flatten_all_positions db).2.filter isFlattenSubmit)
        = (db.get_positions_open.filter fun pp => pp.2.closed = false).map
            (fun pp => SAction.submitFlattenOrder pp.1)
    ∧ (∀ p pos, (p, pos) ∈ db.get_positions_open → pos.closed = false →
        p ∈ s.flattening_ids →
        SAction.submitFlattenOrder p ∈ (s.flatten_all_positions db).2) := by
  by_cases hz : db.get_positions_open = []
  · refine ⟨rfl, rfl, ?_, ?_⟩
    · simp [Strategy.flatten_all_positions, hexec, hz, isFlattenSubmit]
    · intro p pos hmem _ _
      rw [hz] at hmem
      exact absurd hmem (List.not_mem_nil _)
  · have hlen : ¬ db.get_positions_open.length = 0 := by
      simpa [List.length_eq_zero] using hz
    have htr : (s.flatten_all_positions db).2
        = SAction.logInfo :: (db.get_positions_open.flatMap fun pp =>
            if pp.2.closed then [SAction.logWarning]
            else [SAction.logInfo, SAction.submitFlattenOrder pp.1]) := by
      simp [Strategy.flatten_all_positions, hexec, hlen]
    refine ⟨rfl, rfl, ?_, ?_⟩
    · rw [htr]
      have hhd : ∀ L : List SAction,
          (SAction.logInfo :: L).filter isFlattenSubmit = L.filter isFlattenSubmit :=
        fun L => rfl
      rw [hhd]
      exact flatten_all_trace_filter db.get_positions_open
    · intro p pos hmem hopen _
      rw [htr]
      exact List.mem_cons_of_mem _
        (List.mem_flatMap.2 ⟨(p, pos), hmem, by simp [hopen]⟩)

/-- A concrete strategy for the C10 witness: position 9 is already in the
in-flight flattening set. -/
def wStrategyAll : Strategy :=
  { fsm := .running
    data_engine_registered := true, exec_engine_registered := true
    flatten_on_stop := true, flatten_on_reject := true
    cancel_all_orders_on_stop := true, reraise_exceptions := true
    flattening_ids := {9}, stop_loss_ids := ∅, take_profit_ids := ∅
    indicators_for_quotes := fun _ => none
    indicators_for_trades := fun _ => none
    indicators_for_bars := fun _ => none }

/-- A concrete database: positions 9 and 10 open, 11 closed (C10 witness). -/
def wDbAll : Database :=
  { get_position := fun p =>
      if p = 11 then some { symbol := 0, market_position := 1, quantity := 5, closed := true }
      else if p = 9 ∨ p = 10 then
        some { symbol := 0, market_position := 1, quantity := 5, closed := false }
      else none
    get_positions_open :=
      [(9, { symbol := 0, market_position := 1, quantity := 5, closed := false }),
       (10, { symbol := 0, market_position := 1, quantity := 5, closed := false }),
       (11, { symbol := 0, market_position := 1, quantity := 5, closed := true })]
    get_client_position_id := fun _ => none
    is_position_open := fun p => p = 9 ∨ p = 10
    get_orders_working := [] }

/-- Witness for C10: two orders are submitted (for the open positions 9 and
10, although 9 sits in the flattening set), and the set is unchanged. -/
theorem strategy_flatten_all_positions_witness :
    wStrategyAll.exec_engine_registered = true
    ∧ (wStrategyAll.flatten_all_positions wDbAll).1 = wStrategyAll
    ∧ (wStrategyAll.flatten_all_positions wDbAll).1.flattening_ids
        = wStrategyAll.flattening_ids
    ∧ ((wStrategyAll.flatten_all_positions wDbAll).2.filter isFlattenSubmit)
        = [SAction.submitFlattenOrder 9, SAction.submitFlattenOrder 10]
    ∧ SAction.submitFlattenOrder 9 ∈ (wStrategyAll.flatten_all_positions wDbAll).2 :=
  have main := strategy_flatten_all_positions wStrategyAll wDbAll rfl
  ⟨rfl, main.1, main.2.1, by rw [main.2.2.1]; rfl,
    main.2.2.2 9 { symbol := 0, market_position := 1, quantity := 5, closed := false }
      (by decide) rfl (by decide)⟩


theorem flatten_position_preserves (s : Strategy) (db : Database) (p q : Nat)
    (hin : p ∈ s.flattening_ids) :
    p ∈ (s.flatten_position db q).1.flattening_ids
      ∧ SAction.submitFlattenOrder p ∉ (s.flatten_position db q).2 := by
  unfold Strategy.flatten_position
  split
  · exact ⟨hin, by simp⟩
  · split
    · exact ⟨hin, by simp⟩
    · rename_i hexec hq
      split
      · exact ⟨hin, by simp⟩
      · split
        · exact ⟨hin, by simp⟩
        · have hne : p ≠ q := fun h => hq (h ▸ hin)
          exact ⟨Finset.mem_insert_of_mem hin, by simp [hne]⟩

theorem flattenOnReject_preserves (s : Strategy) (db : Database) (p cid : Nat)
    (hin : p ∈ s.flattening_ids) :
    p ∈ (s.flattenOnReject db cid).1.flattening_ids
      ∧ SAction.submitFlattenOrder p ∉ (s.flattenOnReject db cid).2 := by
  unfold Strategy.flattenOnReject
  split
  · exact ⟨hin, by simp⟩
  · split
    · exact ⟨hin, by simp⟩
    · rename_i pid heq
      split
      · have h := flatten_position_preserves s db p pid hin
        exact ⟨h.1, by simpa using h.2⟩
      · exact ⟨hin, by simp⟩

theorem completionDiscard_flattening (s : Strategy) (e : TEvent) :
    (s.completionDiscard e).flattening_ids = s.flattening_ids := by
  unfold Strategy.completionDiscard
  split <;> rfl

theorem handle_event_preserves (s : Strategy) (db : Database) (p : Nat) (e : TEvent)
    (hin : p ∈ s.flattening_ids)
    (hnc : ∀ q, e = .positionClosed q → q ≠ p) :
    p ∈ (s.handle_event db e).1.flattening_ids
      ∧ SAction.submitFlattenOrder p ∉ (s.handle_event db e).2 := by
  have hbk : p ∈ (s.eventBookkeeping db e).1.flattening_ids
      ∧ SAction.submitFlattenOrder p ∉ (s.eventBookkeeping db e).2 := by
    cases e with
    | orderRejected cid =>
      by_cases hf : s.flatten_on_reject = true
      · have h := flattenOnReject_preserves s db p cid hin
        refine ⟨?_, ?_⟩
        · simpa [Strategy.eventBookkeeping, hf] using h.1
        · simpa [Strategy.eventBookkeeping, hf] using h.2
      · refine ⟨?_, ?_⟩
        · simpa [Strategy.eventBookkeeping, hf] using hin
        · simp [Strategy.eventBookkeeping, hf]
    | positionClosed q =>
      have hq : q ≠ p := hnc q rfl
      exact ⟨Finset.mem_erase.2 ⟨fun h => hq h.symm, hin⟩, by simp [Strategy.eventBookkeeping]⟩
    | orderCancelReject cid => exact ⟨hin, by simp [Strategy.eventBookkeeping]⟩
    | orderInvalid cid => exact ⟨hin, by simp [Strategy.eventBookkeeping]⟩
    | orderDenied cid => exact ⟨hin, by simp [Strategy.eventBookkeeping]⟩
    | orderCancelled cid => exact ⟨hin, by simp [Strategy.eventBookkeeping]⟩
    | orderExpired cid => exact ⟨hin, by simp [Strategy.eventBookkeeping]⟩
    | orderFilled cid => exact ⟨hin, by simp [Strategy.eventBookkeeping]⟩
    | otherEvent => exact ⟨hin, by simp [Strategy.eventBookkeeping]⟩
  refine ⟨?_, ?_⟩
  · simp only [Strategy.handle_event]
    split
    · show p ∈ ((s.eventBookkeeping db e).1.completionDiscard e).flattening_ids
      rw [completionDiscard_flattening]
      exact hbk.1
    · show p ∈ ((s.eventBookkeeping db e).1.completionDiscard e).flattening_ids
      rw [completionDiscard_flattening]
      exact hbk.1
  · simp only [Strategy.handle_event]
    split
    · intro hmem
      rcases List.mem_append.1 hmem with h | h
      · exact hbk.2 h
      · simp at h
    · exact hbk.2

theorem flatten_position_submit_insert (s : Strategy) (db : Database) (p : Nat)
    (h : SAction.submitFlattenOrder p ∈ (s.flatten_position db p).2) :
    p ∈ (s.flatten_position db p).1.flattening_ids := by
  by_cases h1 : s.exec_engine_registered = true
  · by_cases h2 : p ∈ s.flattening_ids
    · simp [Strategy.flatten_position, h1, h2] at h
    · cases h3 : db.get_position p with
      | none => simp [Strategy.flatten_position, h1, h2, h3] at h
      | some pos =>
        by_cases h4 : pos.closed = true
        · simp [Strategy.flatten_position, h1, h2, h3, h4] at h
        · simp [Strategy.flatten_position, h1, h2, h3, h4]
  · simp [Strategy.flatten_position, h1] at h

theorem runStep_preserves (s : Strategy) (p : Nat) (step : StratStep)
    (hin : p ∈ s.flattening_ids) (hnc : step.closesPosition p = false) :
    p ∈ (s.runStep step).1.flattening_ids
      ∧ SAction.submitFlattenOrder p ∉ (s.runStep step).2 := by
  cases step with
  | flattenCall db q => exact flatten_position_preserves s db p q hin
  | eventCall db e =>
    refine handle_event_preserves s db p e hin ?_
    intro q hq
    subst hq
    simpa [StratStep.closesPosition] using hnc

theorem runSteps_preserves (s : Strategy) (p : Nat) (steps : List StratStep)
    (hin : p ∈ s.flattening_ids)
    (hnc : ∀ st ∈ steps, st.closesPosition p = false) :
    p ∈ (s.runSteps steps).1.flattening_ids
      ∧ SAction.submitFlattenOrder p ∉ (s.runSteps steps).2 := by
  revert hin hnc
  induction steps generalizing s with
  | nil =>
    intro hin hnc
    exact ⟨hin, by simp [Strategy.runSteps]⟩
  | cons st rest ih =>
    intro hin hnc
    have h1 := runStep_preserves s p st hin (hnc st (List.mem_cons_self _ _))
    have h2 := ih (s.runStep st).1 h1.1
      (fun st2 hst2 => hnc st2 (List.mem_cons_of_mem _ hst2))
    refine ⟨h2.1, ?_⟩
    show SAction.submitFlattenOrder p ∉ (s.runStep st).2 ++ ((s.runStep st).1.runSteps rest).2
    intro hmem
    rcases List.mem_append.1 hmem with h | h
    · exact h1.2 h
    · exact h2.2 h

/-- C4: `flatten_position` on a position id already in the in-flight
flattening set submits no order command and changes no state (warning only);
a step removes an in-flight id from the set only by handling a PositionClosed
event for that id; and after a `flatten_position` that did submit an order,
no later `flatten_position` or `handle_event` step submits a second flatten
order for that id until a PositionClosed event for it is handled. -/
theorem strategy_flatten_position_guard (s : Strategy) (db : Database) (p : Nat) :
    (s.exec_engine_registered = true → p ∈ s.flattening_ids →
        s.flatten_position db p = (s, [SAction.logWarning]))
    ∧ (∀ step : StratStep, p ∈ s.flattening_ids →
        p ∉ (s.runStep step).1.flattening_ids → step.closesPosition p = true)
    ∧ (SAction.submitFlattenOrder p ∈ (s.flatten_position db p).2 →
        ∀ steps : List StratStep, (∀ st ∈ steps, st.closesPosition p = false) →
          p ∈ ((s.flatten_position db p).1.runSteps steps).1.flattening_ids
          ∧ SAction.submitFlattenOrder p
              ∉ ((s.flatten_position db p).1.runSteps steps).2) := by
  refine ⟨?_, ?_, ?_⟩
  · intro hexec hin
    simp [Strategy.flatten_position, hexec, hin]
  · intro step hin hout
    cases hc : step.closesPosition p with
    | true => rfl
    | false => exact absurd (runStep_preserves s p step hin hc).1 hout
  · intro hsub steps hnc
    exact runSteps_preserves _ p steps (flatten_position_submit_insert s db p hsub) hnc

/-- A concrete strategy with nothing in flight, for C4 part 3. -/
def wStrategyFlat : Strategy :=
  { fsm := .running
    data_engine_registered := true, exec_engine_registered := true
    flatten_on_stop := true, flatten_on_reject := true
    cancel_all_orders_on_stop := true, reraise_exceptions := true
    flattening_ids := ∅, stop_loss_ids := ∅, take_profit_ids := ∅
    indicators_for_quotes := fun _ => none
    indicators_for_trades := fun _ => none
    indicators_for_bars := fun _ => none }

/-- Witness for C4: position 9 in flight is guard-skipped; a PositionClosed
step is the one that releases it; a submitting flatten of position 9 is never
repeated across later steps that do not close 9. -/
theorem strategy_flatten_position_guard_witness :
    (wStrategyAll.exec_engine_registered = true
      ∧ 9 ∈ wStrategyAll.flattening_ids
      ∧ wStrategyAll.flatten_position wDbAll 9 = (wStrategyAll, [SAction.logWarning]))
    ∧ (9 ∉ (wStrategyAll.runStep
          (StratStep.eventCall wDbAll (TEvent.positionClosed 9))).1.flattening_ids
      ∧ (StratStep.eventCall wDbAll (TEvent.positionClosed 9)).closesPosition 9 = true)
    ∧ (SAction.submitFlattenOrder 9 ∈ (wStrategyFlat.flatten_position wDbAll 9).2
      ∧ (∀ st ∈ [StratStep.flattenCall wDbAll 9,
            StratStep.eventCall wDbAll (TEvent.orderRejected 3)],
          st.closesPosition 9 = false)
      ∧ SAction.submitFlattenOrder 9
          ∉ ((wStrategyFlat.flatten_position wDbAll 9).1.runSteps
              [StratStep.flattenCall wDbAll 9,
               StratStep.eventCall wDbAll (TEvent.orderRejected 3)]).2) :=
  have hsub : SAction.submitFlattenOrder 9 ∈ (wStrategyFlat.flatten_position wDbAll 9).2 :=
    by decide
  have hnc : ∀ st ∈ [StratStep.flattenCall wDbAll 9,
      StratStep.eventCall wDbAll (TEvent.orderRejected 3)],
      st.closesPosition 9 = false := by decide
  ⟨⟨rfl, by decide,
      (strategy_flatten_position_guard wStrategyAll wDbAll 9).1 rfl (by decide)⟩,
    ⟨by
      have := (strategy_flatten_position_guard wStrategyAll wDbAll 9).2.1
      decide,
      by decide⟩,
    ⟨hsub, hnc,
      ((strategy_flatten_position_guard wStrategyFlat wDbAll 9).2.2 hsub
        [StratStep.flattenCall wDbAll 9,
         StratStep.eventCall wDbAll (TEvent.orderRejected 3)] hnc).2⟩⟩

theorem fsmTransition_stop_eq (st st1 : ComponentState)
    (h : fsmTransition st .stop = some st1) : st1 = .stopping := by
  cases st <;> simp [fsmTransition] at h <;> exact h.symm

theorem fsmTransition_start_eq (st st1 : ComponentState)
    (h : fsmTransition st .start = some st1) :
    st1 = .starting ∧ st = .initialized := by
  cases st <;> simp [fsmTransition] at h <;> exact ⟨h.symm, rfl⟩

theorem stop_fst_fsm (s : Strategy) (db : Database) (cb : Callbacks) :
    (s.stop db cb).1.fsm =
      match fsmTransition s.fsm .stop with
      | none => s.fsm
      | some _ => ComponentState.stopped := by
  unfold Strategy.stop
  cases h : fsmTransition s.fsm .stop with
  | none => rfl
  | some st1 =>
    have hst := fsmTransition_stop_eq _ _ h
    subst hst
    rfl

theorem flatten_all_no_onStart (s : Strategy) (db : Database) :
    SAction.callOnStart ∉ (s.flatten_all_positions db).2 := by
  unfold Strategy.flatten_all_positions
  by_cases h1 : s.exec_engine_registered = true
  · by_cases h2 : db.get_positions_open.length = 0
    · simp [h1, h2]
    · simp only [h1, not_true, if_neg, h2, if_false]
      intro hmem
      rcases List.mem_cons.1 hmem with h | h
      · exact absurd h (by simp)
      · rcases List.mem_flatMap.1 h with ⟨pp, hpp1, hpp2⟩
        by_cases hcl : pp.2.closed = true
        · rw [if_pos hcl] at hpp2
          simp at hpp2
        · rw [if_neg hcl] at hpp2
          simp at hpp2
  · simp [h1]

theorem cancel_all_no_onStart (s : Strategy) (db : Database) :
    SAction.callOnStart ∉ (s.cancel_all_orders db).2 := by
  unfold Strategy.cancel_all_orders
  by_cases h1 : s.exec_engine_registered = true
  · by_cases h2 : db.get_orders_working.length = 0
    · simp [h1, h2]
    · simp only [h1, not_true, if_neg, h2, if_false]
      intro hmem
      rcases List.mem_cons.1 hmem with h | h
      · exact absurd h (by simp)
      · rcases List.mem_map.1 h with ⟨o, _, ho⟩
        exact absurd ho (by simp)
  · simp [h1]

theorem stop_no_onStart (s : Strategy) (db : Database) (cb : Callbacks) :
    SAction.callOnStart ∉ (s.stop db cb).2 := by
  unfold Strategy.stop
  cases h : fsmTransition s.fsm .stop with
  | none => simp
  | some st1 =>
    have hst := fsmTransition_stop_eq _ _ h
    subst hst
    show SAction.callOnStart ∉ _ ++ _ ++ [SAction.callOnStop]
    intro hmem
    rcases List.mem_append.1 hmem with hm | hm
    · rcases List.mem_append.1 hm with hm2 | hm2
      · by_cases hf : ({s with fsm := ComponentState.stopping} : Strategy).flatten_on_stop = true
        · rw [if_pos hf] at hm2
          exact flatten_all_no_onStart _ db hm2
        · rw [if_neg hf] at hm2
          simp at hm2
      · by_cases hc : ({s with fsm := ComponentState.stopping} : Strategy).cancel_all_orders_on_stop = true
        · rw [if_pos hc] at hm2
          exact cancel_all_no_onStart _ db hm2
        · rw [if_neg hc] at hm2
          simp at hm2
    · simp at hm

theorem stop_has_onStop (s : Strategy) (db : Database) (cb : Callbacks)
    (h : fsmTransition s.fsm .stop ≠ none) :
    SAction.callOnStop ∈ (s.stop db cb).2 := by
  unfold Strategy.stop
  cases hstop : fsmTransition s.fsm .stop with
  | none => exact absurd hstop h
  | some st1 =>
    have hst := fsmTransition_stop_eq _ _ hstop
    subst hst
    show SAction.callOnStop ∈ _ ++ _ ++ [SAction.callOnStop]
    simp

theorem start_count_le_one (s : Strategy) (db : Database) (cb : Callbacks) :
    (s.start db cb).2.count SAction.callOnStart ≤ 1 := by
  unfold Strategy.start
  cases hstart : fsmTransition s.fsm .start with
  | none =>
    show ((SAction.logError :: (s.stop db cb).2).count SAction.callOnStart) ≤ 1
    have h0 : (s.stop db cb).2.count SAction.callOnStart = 0 :=
      List.count_eq_zero.2 (stop_no_onStart s db cb)
    simp [List.count_cons, h0]
  | some st1 =>
    by_cases hd : s.data_engine_registered = true
    · by_cases he : s.exec_engine_registered = true
      · by_cases hr : cb.on_start_raises = true
        · simp [hd, he, hr, List.count_cons]
          exact List.count_eq_zero.2 (stop_no_onStart _ db cb)
        · cases hrun : fsmTransition st1 .running with
          | some st2 => simp [hd, he, hr, hrun, List.count_cons]
          | none => simp [hd, he, hr, hrun, List.count_cons]
      · simp [hd, he]
    · simp [hd]

theorem start_onStart_next_invalid (s : Strategy) (db : Database) (cb : Callbacks)
    (h : 0 < (s.start db cb).2.count SAction.callOnStart) :
    fsmTransition (s.start db cb).1.fsm .start = none := by
  unfold Strategy.start at h ⊢
  cases hstart : fsmTransition s.fsm .start with
  | none =>
    rw [hstart] at h
    have h0 : (s.stop db cb).2.count SAction.callOnStart = 0 :=
      List.count_eq_zero.2 (stop_no_onStart s db cb)
    simp [List.count_cons, h0] at h
  | some st1 =>
    obtain ⟨hst1, hinit⟩ := fsmTransition_start_eq _ _ hstart
    subst hst1
    rw [hstart] at h
    by_cases hd : s.data_engine_registered = true
    · by_cases he : s.exec_engine_registered = true
      · by_cases hr : cb.on_start_raises = true
        · simp [hd, he, hr, stop_fst_fsm, fsmTransition]
        · simp [hd, he, hr, fsmTransition]
      · simp [hd, he, List.count_cons] at h
    · simp [hd, List.count_cons] at h

/-- A strategy that was just constructed but never registered with a data
engine (C3 counterexample / witness). -/
def wStrategyNoData : Strategy :=
  { fsm := .initialized
    data_engine_registered := false, exec_engine_registered := true
    flatten_on_stop := true, flatten_on_reject := true
    cancel_all_orders_on_stop := true, reraise_exceptions := true
    flattening_ids := ∅, stop_loss_ids := ∅, take_profit_ids := ∅
    indicators_for_quotes := fun _ => none
    indicators_for_trades := fun _ => none
    indicators_for_bars := fun _ => none }

/-- A fully registered initialized strategy (C3 witness). -/
def wStrategyInit : Strategy :=
  { fsm := .initialized
    data_engine_registered := true, exec_engine_registered := true
    flatten_on_stop := true, flatten_on_reject := true
    cancel_all_orders_on_stop := true, reraise_exceptions := true
    flattening_ids := ∅, stop_loss_ids := ∅, take_profit_ids := ∅
    indicators_for_quotes := fun _ => none
    indicators_for_trades := fun _ => none
    indicators_for_bars := fun _ => none }

/-- A database with nothing open or working (C3). -/
def wDbEmpty : Database :=
  { get_position := fun _ => none
    get_positions_open := []
    get_client_position_id := fun _ => none
    is_position_open := fun _ => false
    get_orders_working := [] }

/-- Callbacks whose `on_start` returns normally. -/
def wCbOk : Callbacks := { on_start_raises := false }

/-- Callbacks whose `on_start` raises. -/
def wCbRaise : Callbacks := { on_start_raises := true }

/-- C3 counterexample: starting a strategy whose data engine is not
registered does NOT fall back to `stop` — the call logs an error and returns
with the FSM left in Starting: no STOP trigger fires, `on_stop` is never
invoked, and the state is neither Stopping nor Stopped (though it is also
not Running). -/
theorem strategy_start_engine_missing_counterexample :
    (wStrategyNoData.start wDbEmpty wCbOk).1.fsm = ComponentState.starting
    ∧ (wStrategyNoData.start wDbEmpty wCbOk).2 = [SAction.logError]
    ∧ SAction.callOnStop ∉ (wStrategyNoData.start wDbEmpty wCbOk).2
    ∧ (wStrategyNoData.start wDbEmpty wCbOk).1.fsm ≠ ComponentState.stopping
    ∧ (wStrategyNoData.start wDbEmpty wCbOk).1.fsm ≠ ComponentState.stopped
    ∧ (wStrategyNoData.start wDbEmpty wCbOk).1.fsm ≠ ComponentState.running := by
  decide

/-- C3 (amended): an invalid START trigger falls back to `stop` and never
ends Running; an unregistered data or execution engine makes `start` abort
with an error log only, leaving the FSM in Starting without invoking `stop`;
an `on_start` exception falls back to `stop`, ending Stopped; a clean start
ends Running having invoked `on_start` once; and two consecutive `start`
calls never invoke `on_start` twice. -/
theorem strategy_start_fallback (s : Strategy) (db : Database) (cb : Callbacks) :
    (fsmTransition s.fsm .start = none →
        s.start db cb = ((s.stop db cb).1, .logError :: (s.stop db cb).2)
        ∧ (s.start db cb).1.fsm ≠ .running)
    ∧ (∀ st1, fsmTransition s.fsm .start = some st1 →
        (s.data_engine_registered = false ∨ s.exec_engine_registered = false) →
        s.start db cb = ({s with fsm := st1}, [.logError]) ∧ st1 = .starting)
    ∧ (fsmTransition s.fsm .start ≠ none →
        s.data_engine_registered = true → s.exec_engine_registered = true →
        cb.on_start_raises = true →
        SAction.callOnStart ∈ (s.start db cb).2
        ∧ SAction.callOnStop ∈ (s.start db cb).2
        ∧ (s.start db cb).1.fsm = .stopped)
    ∧ (fsmTransition s.fsm .start ≠ none →
        s.data_engine_registered = true → s.exec_engine_registered = true →
        cb.on_start_raises = false →
        (s.start db cb).1.fsm = .running
        ∧ (s.start db cb).2 = [SAction.callOnStart])
    ∧ (∀ db2 cb2,
        (s.start db cb).2.count SAction.callOnStart
          + ((s.start db cb).1.start db2 cb2).2.count SAction.callOnStart ≤ 1) := by
  refine ⟨?_, ?_, ?_, ?_, ?_⟩
  · intro h
    constructor
    · simp [Strategy.start, h]
    · have heq : (s.start db cb).1 = (s.stop db cb).1 := by
        simp [Strategy.start, h]
      rw [heq, stop_fst_fsm]
      cases hstop : fsmTransition s.fsm .stop with
      | some st1 => simp
      | none =>
        cases hs : s.fsm <;> rw [hs] at h hstop <;>
          simp [fsmTransition] at h hstop ⊢
  · intro st1 hstart hmiss
    refine ⟨?_, (fsmTransition_start_eq _ _ hstart).1⟩
    rcases hmiss with hd | he
    · simp [Strategy.start, hstart, hd]
    · by_cases hd : s.data_engine_registered = true
      · simp [Strategy.start, hstart, hd, he]
      · simp [Strategy.start, hstart, hd]
  · intro hne hd he hr
    obtain ⟨st1, hstart⟩ := Option.ne_none_iff_exists'.1 hne
    obtain ⟨hst1, -⟩ := fsmTransition_start_eq _ _ hstart
    subst hst1
    have htrace : (s.start db cb).2
        = .callOnStart :: .logError :: (Strategy.stop {s with fsm := .starting} db cb).2 := by
      simp [Strategy.start, hstart, hd, he, hr]
    have hfst : (s.start db cb).1 = (Strategy.stop {s with fsm := .starting} db cb).1 := by
      simp [Strategy.start, hstart, hd, he, hr]
    refine ⟨?_, ?_, ?_⟩
    · rw [htrace]; simp
    · rw [htrace]
      have := stop_has_onStop {s with fsm := .starting} db cb (by simp [fsmTransition])
      simp [this]
    · rw [hfst, stop_fst_fsm]
      simp [fsmTransition]
  · intro hne hd he hr
    obtain ⟨st1, hstart⟩ := Option.ne_none_iff_exists'.1 hne
    obtain ⟨hst1, -⟩ := fsmTransition_start_eq _ _ hstart
    subst hst1
    have hrun : fsmTransition .starting .running = some .running := rfl
    constructor
    · simp [Strategy.start, hstart, hd, he, hr, hrun]
    · simp [Strategy.start, hstart, hd, he, hr, hrun]
  · intro db2 cb2
    cases hz : (s.start db cb).2.count SAction.callOnStart with
    | zero =>
      simpa [hz] using start_count_le_one (s.start db cb).1 db2 cb2
    | succ n =>
      have hn : fsmTransition (s.start db cb).1.fsm .start = none :=
        start_onStart_next_invalid s db cb (by rw [hz]; exact Nat.succ_pos n)
      set s1 := (s.start db cb).1 with hs1
      have htr : (s1.start db2 cb2).2 = .logError :: (s1.stop db2 cb2).2 := by
        simp [Strategy.start, hn]
      have h2 : (s1.start db2 cb2).2.count SAction.callOnStart = 0 := by
        rw [htr]
        have h0 : (s1.stop db2 cb2).2.count SAction.callOnStart = 0 :=
          List.count_eq_zero.2 (stop_no_onStart _ db2 cb2)
        simp [List.count_cons, h0]
      rw [h2]
      have := start_count_le_one s db cb
      omega

/-- Witness for the amended C3 at concrete strategies: a Running strategy
(invalid START), one missing its data engine, one whose `on_start` raises,
one that starts cleanly, and a double start. -/
theorem strategy_start_fallback_witness :
    (fsmTransition wStrategyFlat.fsm .start = none
      ∧ wStrategyFlat.start wDbEmpty wCbOk
          = ((wStrategyFlat.stop wDbEmpty wCbOk).1,
              .logError :: (wStrategyFlat.stop wDbEmpty wCbOk).2)
      ∧ (wStrategyFlat.start wDbEmpty wCbOk).1.fsm ≠ .running)
    ∧ (wStrategyNoData.start wDbEmpty wCbOk
        = ({wStrategyNoData with fsm := .starting}, [.logError]))
    ∧ (SAction.callOnStart ∈ (wStrategyInit.start wDbEmpty wCbRaise).2
      ∧ SAction.callOnStop ∈ (wStrategyInit.start wDbEmpty wCbRaise).2
      ∧ (wStrategyInit.start wDbEmpty wCbRaise).1.fsm = .stopped)
    ∧ ((wStrategyInit.start wDbEmpty wCbOk).1.fsm = .running
      ∧ (wStrategyInit.start wDbEmpty wCbOk).2 = [SAction.callOnStart])
    ∧ ((wStrategyInit.start wDbEmpty wCbOk).2.count SAction.callOnStart
        + (((wStrategyInit.start wDbEmpty wCbOk).1.start wDbEmpty wCbOk)).2.count
            SAction.callOnStart ≤ 1) :=
  have h1 := (strategy_start_fallback wStrategyFlat wDbEmpty wCbOk).1 rfl
  have h2 := (strategy_start_fallback wStrategyNoData wDbEmpty wCbOk).2.1
    .starting rfl (Or.inl rfl)
  have h3 := (strategy_start_fallback wStrategyInit wDbEmpty wCbRaise).2.2.1
    (by decide) rfl rfl rfl
  have h4 := (strategy_start_fallback wStrategyInit wDbEmpty wCbOk).2.2.2.1
    (by decide) rfl rfl rfl
  have h5 := (strategy_start_fallback wStrategyInit wDbEmpty wCbOk).2.2.2.2
    wDbEmpty wCbOk
  ⟨⟨rfl, h1.1, h1.2⟩, h2.1, h3, h4, h5⟩

/-! ### Strategy save/load state contract (trading/strategy.pyx) -/

/-- Keys of the strategy state dictionary.  `save` writes the reserved keys
as Python `str` keys; `load` reads them as `bytes` keys (the two are distinct
dictionary keys, exactly as in the source). -/
inductive DKey
  | strK (s : String)
  | bytesK (s : String)
  deriving DecidableEq, Repr

/-- Values of the strategy state dictionary: the generator counts stored by
`save`, byte-string encodings of counts read by `load`, and opaque
user-supplied values (modelled as truthy non-bytes objects). -/
inductive DVal
  | natV (n : Nat)
  | bytesV (s : String)
  | userV (n : Nat)
  deriving DecidableEq, Repr

/-- Right-biased association-list lookup: the last binding of a key wins,
matching Python dict assignment order and `{**a, **b}` merges. -/
def dlookup (l : List (DKey × DVal)) (k : DKey) : Option DVal :=
  (l.reverse.find? fun p => p.1 == k).map Prod.snd

/-- Source `TradingStrategy.save`: the reserved `OrderIdCount` / `PositionIdCount`
entries (from the order factory and position-id generator counts) merged
with the user-supplied mapping from `on_save`, user entries winning on key
conflicts (`{**state, **user_state}`). -/
def strategySave (order_id_count position_id_count : Nat)
    (user_state : List (DKey × DVal)) : List (DKey × DVal) :=
  [(DKey.strK "OrderIdCount", DVal.natV order_id_count),
   (DKey.strK "PositionIdCount", DVal.natV position_id_count)] ++ user_state

/-- The effects of `load`: generator reseeds and the `on_load` user hook. -/
inductive LAction
  | setOrderIdCount (n : Nat)
  | setPositionIdCount (n : Nat)
  | callOnLoad
  deriving DecidableEq, Repr

/-- The exceptions `load` can raise. -/
inductive LoadErr
  | emptyState
  | valueError
  | attributeError
  deriving DecidableEq, Repr

/-- The numeric value of a decimal digit character, `none` otherwise. -/
def charDigit (c : Char) : Option Nat :=
  if 48 ≤ c.toNat ∧ c.toNat ≤ 57 then some (c.toNat - 48) else none

/-- Decimal parsing of a non-empty digit string, as `int()` accepts it
(modulo sign and whitespace, which the stored counts never carry);
`none` when any character is not a digit or the string is empty. -/
def parseCount (s : String) : Option Nat :=
  match s.data with
  | [] => none
  | l =>
    l.foldl
      (fun acc c =>
        match acc, charDigit c with
        | some n, some d => some (n * 10 + d)
        | _, _ => none)
      (some 0)

/-- One reserved-count read in `load`: a missing or falsy (empty-bytes, zero)
value is skipped; a non-empty bytes value is decoded and parsed as an
integer (`int(value.decode("utf8"))`), raising on non-numeric bytes; a
truthy non-bytes value has no `.decode` and raises. -/
def loadCountActs (v : Option DVal) (mk : Nat → LAction) :
    Except LoadErr (List LAction) :=
  match v with
  | none => .ok []
  | some (DVal.bytesV s) =>
    if s = "" then .ok []
    else
      match parseCount s with
      | some n => .ok [mk n]
      | none => .error .valueError
  | some (DVal.natV n) => if n = 0 then .ok [] else .error .attributeError
  | some (DVal.userV _) => .error .attributeError

/-- Source `TradingStrategy.load`: `Condition.not_empty(state)`, then reseed the
order-id and position-id generators from the bytes-keyed reserved entries
when present, then invoke `on_load` (exceptions from the hook are logged and
swallowed). -/
def strategyLoad (state : List (DKey × DVal)) : Except LoadErr (List LAction) :=
  if state = [] then .error .emptyState
  else do
    let a1 ← loadCountActs (dlookup state (DKey.bytesK "OrderIdCount"))
      LAction.setOrderIdCount
    let a2 ← loadCountActs (dlookup state (DKey.bytesK "PositionIdCount"))
      LAction.setPositionIdCount
    .ok (a1 ++ a2 ++ [LAction.callOnLoad])

theorem dlookup_append_right (l u : List (DKey × DVal)) (k : DKey) (v : DVal)
    (h : dlookup u k = some v) : dlookup (l ++ u) k = some v := by
  unfold dlookup at h ⊢
  rw [List.reverse_append, List.find?_append]
  cases hu : u.reverse.find? fun p => p.1 == k with
  | none => rw [hu] at h; simp at h
  | some x =>
    rw [hu] at h
    show ((Option.some x).or _).map Prod.snd = some v
    rw [Option.or]
    exact h

theorem dlookup_append (l u : List (DKey × DVal)) (k : DKey) :
    dlookup (l ++ u) k = (dlookup u k).or (dlookup l k) := by
  unfold dlookup
  rw [List.reverse_append, List.find?_append]
  cases hu : u.reverse.find? fun p => p.1 == k <;> simp [Option.or]

/-- C7: `save` always contains the reserved `OrderIdCount` and
`PositionIdCount` keys merged with every user-supplied pair (user pairs win
on conflicts, and the reserved values are the generator counts otherwise);
`load` tolerates both reserved keys being absent from a non-empty state and,
when they are present as byte-encoded counts, reseeds the order-id and
position-id generators from them before invoking `on_load`. -/
theorem strategy_save_load (o p : Nat) (user state : List (DKey × DVal)) :
    ((dlookup (strategySave o p user) (DKey.strK "OrderIdCount")).isSome
      ∧ (dlookup (strategySave o p user) (DKey.strK "PositionIdCount")).isSome
      ∧ (∀ k v, dlookup user k = some v → dlookup (strategySave o p user) k = some v)
      ∧ (dlookup user (DKey.strK "OrderIdCount") = none →
          dlookup (strategySave o p user) (DKey.strK "OrderIdCount")
            = some (DVal.natV o))
      ∧ (dlookup user (DKey.strK "PositionIdCount") = none →
          dlookup (strategySave o p user) (DKey.strK "PositionIdCount")
            = some (DVal.natV p)))
    ∧ (state ≠ [] →
        dlookup state (DKey.bytesK "OrderIdCount") = none →
        dlookup state (DKey.bytesK "PositionIdCount") = none →
        strategyLoad state = .ok [LAction.callOnLoad])
    ∧ (∀ so sp no np,
        dlookup state (DKey.bytesK "OrderIdCount") = some (DVal.bytesV so) →
        dlookup state (DKey.bytesK "PositionIdCount") = some (DVal.bytesV sp) →
        so ≠ "" → sp ≠ "" → parseCount so = some no → parseCount sp = some np →
        strategyLoad state
          = .ok [LAction.setOrderIdCount no, LAction.setPositionIdCount np,
              LAction.callOnLoad]) := by
  refine ⟨⟨?_, ?_, ?_, ?_, ?_⟩, ?_, ?_⟩
  · rw [strategySave, dlookup_append]
    cases hu : dlookup user (DKey.strK "OrderIdCount") <;> simp [Option.or] <;> rfl
  · rw [strategySave, dlookup_append]
    cases hu : dlookup user (DKey.strK "PositionIdCount") <;> simp [Option.or] <;> rfl
  · intro k v h
    exact dlookup_append_right _ user k v h
  · intro h
    rw [strategySave, dlookup_append, h]
    rfl
  · intro h
    rw [strategySave, dlookup_append, h]
    rfl
  · intro hne ho hp
    simp [strategyLoad, hne, ho, hp, loadCountActs]
    rfl
  · intro so sp no np ho hp hso hsp hno hnp
    have hne : state ≠ [] := by
      intro h
      rw [h] at ho
      simp [dlookup] at ho
    simp [strategyLoad, hne, ho, hp, loadCountActs, hso, hsp, hno, hnp]
    rfl

/-- Concrete user state for the C7 witness. -/
def wUser : List (DKey × DVal) := [(DKey.strK "riskLimit", DVal.userV 42)]

/-- Concrete fresh load state without reserved keys (C7 witness). -/
def wFresh : List (DKey × DVal) := [(DKey.strK "riskLimit", DVal.userV 42)]

/-- Concrete load state carrying both reserved byte-encoded counts. -/
def wLoaded : List (DKey × DVal) :=
  [(DKey.bytesK "OrderIdCount", DVal.bytesV "7"),
   (DKey.bytesK "PositionIdCount", DVal.bytesV "2")]

/-- Witness for C7 at concrete states. -/
theorem strategy_save_load_witness :
    ((dlookup (strategySave 3 5 wUser) (DKey.strK "OrderIdCount")).isSome
      ∧ dlookup (strategySave 3 5 wUser) (DKey.strK "riskLimit")
          = some (DVal.userV 42)
      ∧ dlookup (strategySave 3 5 wUser) (DKey.strK "OrderIdCount")
          = some (DVal.natV 3))
    ∧ strategyLoad wFresh = .ok [LAction.callOnLoad]
    ∧ strategyLoad wLoaded
        = .ok [LAction.setOrderIdCount 7, LAction.setPositionIdCount 2,
            LAction.callOnLoad] :=
  have main := strategy_save_load 3 5 wUser wFresh
  have main2 := strategy_save_load 3 5 wUser wLoaded
  ⟨⟨main.1.1, main.1.2.2.1 (DKey.strK "riskLimit") (DVal.userV 42) rfl,
      main.1.2.2.2.1 rfl⟩,
    main.2.1 (by decide) rfl rfl,
    main2.2.2 "7" "2" 7 2 rfl rfl (by decide) (by decide) (by decide) (by decide)⟩
